import Mathlib

/-!
Verification of the acer-keyboard-rgb utility (Rust sources: src/main.rs,
src/utils.rs, src/interactive.rs) against its natural-language specification.

Rust strings are modelled as `List Char` (Unicode scalar values, matching
Rust `char`).  Rust byte-indexed operations (`str::len`, slicing `&s[a..b]`)
are modelled through the UTF-8 byte length of each character; slicing off a
character boundary is a panic in Rust and is modelled by `Option.none` /
the `RustResult.panicked` outcome.  Machine integers (`u8`) are modelled as
`Nat` with explicit range checks where the source performs them.
-/

/-- Outcome of a Rust function that can return a value, return an error
(`Result::Err`), or panic. -/
inductive RustResult (α : Type) where
  | ok (val : α)
  | err (msg : String)
  | panicked
deriving DecidableEq, Repr

/-- UTF-8 encoded length in bytes of one character, as used by Rust
`str::len` and byte-indexed slicing. -/
def utf8Len (c : Char) : Nat :=
  if c.toNat < 128 then 1
  else if c.toNat < 2048 then 2
  else if c.toNat < 65536 then 3
  else 4

/-- Rust `str::len`: the UTF-8 byte length of a string. -/
def strLen (s : List Char) : Nat := (s.map utf8Len).sum

/-- Drop the first `n` bytes of a string; `none` when `n` is not on a
character boundary or past the end (a panic in Rust). -/
def byteDrop : List Char → Nat → Option (List Char)
  | s, 0 => some s
  | [], _ + 1 => none
  | c :: rest, n + 1 =>
      if utf8Len c ≤ n + 1 then byteDrop rest (n + 1 - utf8Len c) else none

/-- Take the first `n` bytes of a string; `none` when `n` is not on a
character boundary or past the end (a panic in Rust). -/
def sliceTo : List Char → Nat → Option (List Char)
  | _, 0 => some []
  | [], _ + 1 => none
  | c :: rest, n + 1 =>
      if utf8Len c ≤ n + 1 then (sliceTo rest (n + 1 - utf8Len c)).map (fun t => c :: t)
      else none

/-- Rust byte slicing `&s[a..b]` (with `a ≤ b`); `none` models the
byte-index-is-not-a-char-boundary / out-of-range panic. -/
def byteSlice (s : List Char) (a b : Nat) : Option (List Char) :=
  (byteDrop s a).bind (fun t => sliceTo t (b - a))

/-- ASCII decimal digit test, as used by Rust integer parsing. -/
def isDigitCh (c : Char) : Bool := 48 ≤ c.toNat && c.toNat ≤ 57

/-- ASCII hex digit test (0-9, A-F, a-f), as accepted by
`u8::from_str_radix(_, 16)`. -/
def isHexCh (c : Char) : Bool :=
  (48 ≤ c.toNat && c.toNat ≤ 57) || (65 ≤ c.toNat && c.toNat ≤ 70)
    || (97 ≤ c.toNat && c.toNat ≤ 102)

/-- Numeric value of an ASCII hex digit. -/
def hexDigitVal (c : Char) : Nat :=
  if c.toNat ≤ 57 then c.toNat - 48
  else if c.toNat ≤ 70 then c.toNat - 55
  else c.toNat - 87

/-- Value of a decimal digit string. -/
def decVal (s : List Char) : Nat := s.foldl (fun a c => a * 10 + (c.toNat - 48)) 0

/-- Value of a hex digit string. -/
def hexVal (s : List Char) : Nat := s.foldl (fun a c => a * 16 + hexDigitVal c) 0

/-- Rust integer parsing accepts one optional leading plus sign. -/
def stripPlus (s : List Char) : List Char :=
  match s with
  | [] => []
  | c :: r => if c = '+' then r else c :: r

/-- Rust `u8::from_str` (`input.parse::<u8>()`): optional leading plus,
one or more ASCII decimal digits, value at most 255; anything else is an
error (`none`).  Intermediate overflow in Rust and a final value above 255
coincide because the accumulator is monotone. -/
def parse_u8_rust (s : List Char) : Option Nat :=
  let t := stripPlus s
  if t ≠ [] ∧ t.all isDigitCh ∧ decVal t ≤ 255 then some (decVal t) else none

/-- Rust `u8::from_str_radix(s, 16)`: optional leading plus, one or more
hex digits, value at most 255. -/
def from_str_radix16 (s : List Char) : Option Nat :=
  let t := stripPlus s
  if t ≠ [] ∧ t.all isHexCh ∧ hexVal t ≤ 255 then some (hexVal t) else none

/-- Whitespace test used by Rust `str::trim` (modelled for the ASCII
whitespace characters; the claims never involve exotic Unicode spaces). -/
def isWS (c : Char) : Bool := c == ' ' || c == '\t' || c == '\n' || c == '\r'

/-- Rust `str::trim`: strip leading and trailing whitespace. -/
def trim (s : List Char) : List Char :=
  ((s.dropWhile isWS).reverse.dropWhile isWS).reverse

/-- Rust `str::split(',')`: split at every comma; an empty input yields one
empty part. -/
def splitComma : List Char → List (List Char)
  | [] => [[]]
  | c :: rest =>
      if c = ',' then [] :: splitComma rest
      else
        match splitComma rest with
        | [] => [[c]]
        | p :: ps => (c :: p) :: ps

/-- ASCII lowercasing, modelling `str::to_lowercase` on the inputs the
parsers compare against (all-ASCII keywords). -/
def lowerStr (s : List Char) : List Char := s.map Char.toLower

/-- Lighting modes of src/main.rs (enum LightingMode, ordinals 0..5). -/
inductive LightingMode where
  | static | breath | neon | wave | shifting | zoom
deriving DecidableEq, Repr

/-- Rust `mode as u8`: the declaration-order ordinal of the enum. -/
def modeOrd : LightingMode → Nat
  | .static => 0 | .breath => 1 | .neon => 2 | .wave => 3 | .shifting => 4 | .zoom => 5

/-- Directions of src/main.rs (enum Direction with explicit discriminants). -/
inductive Direction where
  | rightToLeft | leftToRight
deriving DecidableEq, Repr

/-- Rust `direction as u8`: RightToLeft = 1, LeftToRight = 2. -/
def dirCode : Direction → Nat
  | .rightToLeft => 1 | .leftToRight => 2

/-- `LightingMode::from_str` (src/main.rs): lowercase, exact keyword match. -/
def from_str_mode (s : List Char) : RustResult LightingMode :=
  let t := lowerStr s
  if t = "static".data then .ok .static
  else if t = "breath".data then .ok .breath
  else if t = "neon".data then .ok .neon
  else if t = "wave".data then .ok .wave
  else if t = "shifting".data then .ok .shifting
  else if t = "zoom".data then .ok .zoom
  else .err "is not a valid lighting mode"

/-- `Direction::from_str` (src/main.rs). -/
def from_str_direction (s : List Char) : RustResult Direction :=
  let t := lowerStr s
  if t = "right-to-left".data then .ok .rightToLeft
  else if t = "left-to-right".data then .ok .leftToRight
  else .err "is not a valid direction"

/-- `parse_lighting_mode` (src/utils.rs): `from_str` with a fixed message. -/
def parse_lighting_mode (s : List Char) : RustResult LightingMode :=
  match from_str_mode s with
  | .ok m => .ok m
  | .err _ => .err "Invalid lighting mode, please try again."
  | .panicked => .panicked

/-- `parse_direction` (src/utils.rs). -/
def parse_direction (s : List Char) : RustResult Direction :=
  match from_str_direction s with
  | .ok d => .ok d
  | .err _ => .err "Invalid direction, please try again."
  | .panicked => .panicked

/-- Inner loop of `parse_zones`: trim and parse each comma-separated part,
failing on the first bad part (Rust `collect` over `Result`). -/
def collectZones : List (List Char) → RustResult (List Nat)
  | [] => .ok []
  | p :: ps =>
      match parse_u8_rust (trim p) with
      | some v =>
          match collectZones ps with
          | .ok vs => .ok (v :: vs)
          | .err e => .err e
          | .panicked => .panicked
      | none => .err "Zones must be numbers separated by commas."

/-- `parse_zones` (src/utils.rs): split on commas, trim, parse each as u8. -/
def parse_zones (s : List Char) : RustResult (List Nat) :=
  collectZones (splitComma s)

/-- `parse_u8` (src/utils.rs): parse a decimal u8 and enforce the inclusive
bounds, naming the field in the error. -/
def parse_u8 (s : List Char) (field : String) (lo hi : Nat) : RustResult Nat :=
  match parse_u8_rust s with
  | none => .err (field ++ " must be a number.")
  | some v =>
      if lo ≤ v ∧ v ≤ hi then .ok v
      else .err (field ++ " must be between " ++ Nat.repr lo ++ " and " ++ Nat.repr hi ++ ".")

/-- `parse_confirmation` (src/utils.rs): case-insensitive y/yes/n/no. -/
def parse_confirmation (s : List Char) : RustResult Bool :=
  let t := lowerStr s
  if t = "y".data ∨ t = "yes".data then .ok true
  else if t = "n".data ∨ t = "no".data then .ok false
  else .err "Invalid input, please enter Y or N."

/-- `parse_hex_color` (src/utils.rs): dispatch on the byte length of the
input; 6 hex chars decode pairwise, 3 hex chars have each nibble doubled.
The byte slices `&hex[0..2]` etc. panic when the byte index falls inside a
multi-byte character, modelled by `RustResult.panicked`. -/
def parse_hex_color (hex : List Char) : RustResult (Nat × Nat × Nat) :=
  if strLen hex = 6 then
    match byteSlice hex 0 2 with
    | none => .panicked
    | some rs =>
      match from_str_radix16 rs with
      | none => .err "Invalid red component in hex"
      | some r =>
        match byteSlice hex 2 4 with
        | none => .panicked
        | some gs =>
          match from_str_radix16 gs with
          | none => .err "Invalid green component in hex"
          | some g =>
            match byteSlice hex 4 6 with
            | none => .panicked
            | some bs =>
              match from_str_radix16 bs with
              | none => .err "Invalid blue component in hex"
              | some b => .ok (r, g, b)
  else if strLen hex = 3 then
    match byteSlice hex 0 1 with
    | none => .panicked
    | some rs =>
      match from_str_radix16 (rs ++ rs) with
      | none => .err "Invalid red component in shorthand hex"
      | some r =>
        match byteSlice hex 1 2 with
        | none => .panicked
        | some gs =>
          match from_str_radix16 (gs ++ gs) with
          | none => .err "Invalid green component in shorthand hex"
          | some g =>
            match byteSlice hex 2 3 with
            | none => .panicked
            | some bs =>
              match from_str_radix16 (bs ++ bs) with
              | none => .err "Invalid blue component in shorthand hex"
              | some b => .ok (r, g, b)
  else .err "Hex color must be either 3 or 6 characters long"

/-- `parse_rgb_tuple` (src/utils.rs): exactly three comma-separated parts,
each trimmed and parsed as a decimal u8. -/
def parse_rgb_tuple (s : List Char) : RustResult (Nat × Nat × Nat) :=
  match splitComma s with
  | [p1, p2, p3] =>
      match parse_u8_rust (trim p1) with
      | none => .err "Invalid red component in RGB"
      | some r =>
        match parse_u8_rust (trim p2) with
        | none => .err "Invalid green component in RGB"
        | some g =>
          match parse_u8_rust (trim p3) with
          | none => .err "Invalid blue component in RGB"
          | some b => .ok (r, g, b)
  | _ => .err "RGB tuple must have exactly 3 components"

/-- `parse_color` (src/utils.rs): a leading # selects hex parsing; else an
input of byte length 6 is treated as bare hex; else an input containing a
comma is treated as an r,g,b tuple; else an error. -/
def parse_color (s : List Char) : RustResult (Nat × Nat × Nat) :=
  if s ≠ [] ∧ s.headD ' ' = '#' then parse_hex_color s.tail
  else if strLen s = 6 then parse_hex_color s
  else if ',' ∈ s then parse_rgb_tuple s
  else .err "Invalid color format. Use #rrggbb, #rgb, rrggbb, or r,g,b."


/-! ## Payload encoder and device controller (src/main.rs) -/

/-- RGB color (struct RGB of src/main.rs); u8 channels modelled as `Nat`. -/
structure RGB where
  red : Nat
  green : Nat
  blue : Nat
deriving DecidableEq, Repr

/-- `RGB::to_bytes`. -/
def RGB.to_bytes (c : RGB) : List Nat := [c.red, c.green, c.blue]

/-- Device path constant CHARACTER_DEVICE of src/main.rs. -/
def CHARACTER_DEVICE : String := "/dev/acer-gkbbl-0"

/-- Device path constant CHARACTER_DEVICE_STATIC of src/main.rs. -/
def CHARACTER_DEVICE_STATIC : String := "/dev/acer-gkbbl-static-0"

/-- `Zone::new` (src/main.rs): 0 (meaning all zones) and 1..4 are accepted,
anything else is an error.  A zone is modelled as its `Nat` value. -/
def Zone.new (z : Nat) : RustResult Nat :=
  if z = 0 then .ok 0
  else if 1 ≤ z ∧ z ≤ 4 then .ok z
  else .err "Zone must be 0 (all zones) or between 1 and 4"

/-- `Zone::to_mask` (src/main.rs): `1 << (zone - 1)` on u8.  For zone 0 the
u8 subtraction underflows, and for zone ≥ 9 the shift exceeds the u8 width;
both are arithmetic-overflow panics in a debug build, modelled by
`panicked`.  For 1 ≤ zone ≤ 8 the value is `2 ^ (zone - 1)`. -/
def Zone.to_mask (z : Nat) : RustResult Nat :=
  if z = 0 ∨ 9 ≤ z then .panicked else .ok (2 ^ (z - 1))

/-- `convert_zones` (src/main.rs): the one-element list `[0]` expands to all
four zones; every other list is validated element-wise by `Zone::new`
(note that `Zone::new 0` succeeds, so a longer list may retain zone 0). -/
def convert_zones (zones : List Nat) : RustResult (List Nat) :=
  if zones.length = 1 ∧ zones.headD 1 = 0 then .ok [1, 2, 3, 4]
  else zones.foldr
    (fun z acc =>
      match Zone.new z with
      | .ok v => match acc with
        | .ok vs => .ok (v :: vs)
        | e => e
      | .err m => .err m
      | .panicked => .panicked)
    (.ok [])

/-- A (device path, byte buffer) pair (struct DevicePayload of src/main.rs). -/
structure DevicePayload where
  device : String
  payload : List Nat
deriving DecidableEq, Repr

/-- The two variants of enum KeyboardController: a real controller holding
lazily opened device files, and a dry-run controller. -/
inductive Controller where
  | real
  | dryRun
deriving DecidableEq, Repr

/-- Filesystem interaction performed by a controller: which device paths
were opened and which (path, bytes) writes were issued, in order. -/
structure IOTrace where
  opened : List String
  written : List (String × List Nat)
deriving DecidableEq, Repr

/-- The per-zone 4-byte buffer of `apply_static`: byte 0 is the zone mask,
bytes 1..3 are the color channels (copy_from_slice of `RGB::to_bytes`). -/
def staticPayloadBuf (mask : Nat) (c : RGB) : List Nat :=
  ((((List.replicate 4 0).set 0 mask).set 1 c.red).set 2 c.green).set 3 c.blue

/-- The 16-byte enable buffer of `apply_static`: byte 2 is hardcoded 100,
byte 9 is 1, all others zero. -/
def enablePayload : List Nat :=
  ((List.replicate 16 0).set 2 100).set 9 1

/-- The loop of `apply_static` building one buffer per zone, propagating the
`Zone::to_mask` panic for zone 0. -/
def zoneBufs (zones : List Nat) (c : RGB) : RustResult (List (List Nat)) :=
  zones.foldr
    (fun z acc =>
      match Zone.to_mask z with
      | .ok m => match acc with
        | .ok bs => .ok (staticPayloadBuf m c :: bs)
        | e => e
      | .err e => .err e
      | .panicked => .panicked)
    (.ok [])

/-- `KeyboardController::apply_static` (src/main.rs): one 4-byte buffer per
zone (returned as payload descriptors for the static device), then writes
them in the real variant (after lazily opening the static device), then one
16-byte enable buffer for the dynamic device, written likewise.  The
returned payload list is built identically in both variants; only the
real variant opens devices and writes. -/
def apply_static (ctrl : Controller) (zones : List Nat) (c : RGB) :
    RustResult (List DevicePayload × IOTrace) :=
  match zoneBufs zones c with
  | .panicked => .panicked
  | .err e => .err e
  | .ok bufs =>
    let payloads := bufs.map (fun b => DevicePayload.mk CHARACTER_DEVICE_STATIC b)
    let tr1 : IOTrace :=
      match ctrl with
      | .real => ⟨[CHARACTER_DEVICE_STATIC], bufs.map (fun b => (CHARACTER_DEVICE_STATIC, b))⟩
      | .dryRun => ⟨[], []⟩
    let tr2 : IOTrace :=
      match ctrl with
      | .real => ⟨tr1.opened ++ [CHARACTER_DEVICE], tr1.written ++ [(CHARACTER_DEVICE, enablePayload)]⟩
      | .dryRun => tr1
    .ok (payloads ++ [DevicePayload.mk CHARACTER_DEVICE enablePayload], tr2)

/-- The 16-byte buffer of `apply_dynamic`, assembled in source order:
mode ordinal, speed, brightness, the Wave marker 8, direction code, the
three color channels, and byte 9 set to 1. -/
def dynamicPayloadBuf (mode : LightingMode) (speed brightness : Nat)
    (dir : Direction) (c : RGB) : List Nat :=
  (((((((((List.replicate 16 0).set 0 (modeOrd mode)).set 1 speed).set 2 brightness).set 3
    (if mode = LightingMode.wave then 8 else 0)).set 4 (dirCode dir)).set 5 c.red).set 6
    c.green).set 7 c.blue).set 9 1

/-- `KeyboardController::apply_dynamic` (src/main.rs): a single payload for
the dynamic device; the real variant lazily opens that device and writes
the buffer, the dry-run variant does not touch the filesystem. -/
def apply_dynamic (ctrl : Controller) (mode : LightingMode) (speed brightness : Nat)
    (dir : Direction) (c : RGB) : List DevicePayload × IOTrace :=
  let buf := dynamicPayloadBuf mode speed brightness dir c
  ([DevicePayload.mk CHARACTER_DEVICE buf],
    match ctrl with
    | .real => ⟨[CHARACTER_DEVICE], [(CHARACTER_DEVICE, buf)]⟩
    | .dryRun => ⟨[], []⟩)

/-- The dispatch of `main` (src/main.rs): Static mode uses `apply_static`
with the converted zones, every other mode uses `apply_dynamic`. -/
def applyMode (ctrl : Controller) (mode : LightingMode) (zones : List Nat)
    (speed brightness : Nat) (dir : Direction) (c : RGB) :
    RustResult (List DevicePayload × IOTrace) :=
  match mode with
  | .static => apply_static ctrl zones c
  | _ => .ok (apply_dynamic ctrl mode speed brightness dir c)

/-- Payload component of a controller application result. -/
def payloadsOf (r : RustResult (List DevicePayload × IOTrace)) :
    RustResult (List DevicePayload) :=
  match r with
  | .ok (p, _) => .ok p
  | .err e => .err e
  | .panicked => .panicked

/-! ## Argument model and the main flow (src/main.rs) -/

/-- The Argument Model (struct Args of src/main.rs).  Profile files store
every one of these fields (the struct derives Serialize and Deserialize
with no skipped field). -/
structure Args where
  mode : LightingMode
  zones : List Nat
  speed : Nat
  brightness : Nat
  direction : Direction
  color : Option (List Char)
  red : Nat
  green : Nat
  blue : Nat
  save : Option String
  load : Option String
  list : Bool
  dry_run : Bool
  interactive : Bool
deriving DecidableEq, Repr

/-- Fatal outcomes of the argument-resolution phase of `main`. -/
inductive MainErr where
  | colorError (msg : String)
  | colorPanic
  | loadError (profile : String)
deriving DecidableEq, Repr

/-- The color-override step of `main`: when `--color` is present its parse
result replaces the r/g/b components; a parse failure aborts. -/
def resolveColor (a : Args) : Except MainErr Args :=
  match a.color with
  | none => .ok a
  | some s =>
    match parse_color s with
    | .ok (r, g, b) => .ok { a with red := r, green := g, blue := b }
    | .err m => .error (.colorError m)
    | .panicked => .error .colorPanic

/-- Insert (or overwrite) one named profile in the profile store.  The
store models the per-user profile directory as a map from profile name to
the Argument Model the file deserializes to; the serde JSON round-trip of
struct Args is assumed faithful. -/
def storeInsert (store : String → Option Args) (n : String) (a : Args) :
    String → Option Args :=
  fun m => if m = n then some a else store m

/-- Result of the argument-resolution phase of `main`: the effective
Argument Model that the save step and the encoder consume, the updated
profile store, and whether the run ended early via `--list`. -/
structure MainOutcome where
  effective : Args
  store : String → Option Args
  listed : Bool

/-- The sequential phases of `main` after interactive handling
(src/main.rs): resolve the color override, return early when `--list` is
set, then replace the whole Argument Model by the loaded profile when
`--load` is set (a missing profile aborts), then save the resulting model
when its `save` field is set. -/
def mainSteps (a0 : Args) (store : String → Option Args) : Except MainErr MainOutcome :=
  match resolveColor a0 with
  | .error e => .error e
  | .ok a1 =>
    if a1.list then .ok ⟨a1, store, true⟩
    else
      match (match a1.load with
             | some p =>
               match store p with
               | some f => Except.ok f
               | none => Except.error (MainErr.loadError p)
             | none => Except.ok a1) with
      | .error e => .error e
      | .ok a2 =>
        let store2 := match a2.save with
          | some p => storeInsert store p a2
          | none => store
        .ok ⟨a2, store2, false⟩

/-! ## Interactive prompter (src/interactive.rs) -/

/-- Outcome of running a scripted interactive session: a value, a panic
propagated from a parser, or a run that blocks forever because the script
has no further input line. -/
inductive RunRes (α : Type) where
  | ok (val : α)
  | panicked
  | stuck

/-- Sequencing of scripted-session outcomes. -/
def RunRes.bind {α β : Type} (x : RunRes α) (f : α → RunRes β) : RunRes β :=
  match x with
  | .ok v => f v
  | .panicked => .panicked
  | .stuck => .stuck

/-- One displayed prompt: its message and the default offered to the user. -/
structure PromptRec where
  message : String
  dflt : List Char
deriving DecidableEq, Repr

/-- A scripted user: each entry is one line of input, where `none` means
the user accepted the offered default (dialoguer substitutes the default
string for an empty entry). -/
abbrev Script : Type := List (Option (List Char))

/-- Trace of prompts displayed during a session. -/
abbrev PromptTrace : Type := List PromptRec

/-- `prompt_with_retry` (src/interactive.rs): display the prompt with its
default, read one line, and re-ask on a parse error without advancing. -/
def prompt {α : Type} (parse : List Char → RustResult α) (msg : String)
    (dflt : List Char) : Script → PromptTrace → RunRes (α × Script × PromptTrace)
  | [], _ => .stuck
  | e :: rest, tr =>
    let s := e.getD dflt
    let tr2 := tr ++ [⟨msg, dflt⟩]
    match parse s with
    | .ok v => .ok (v, rest, tr2)
    | .err _ => prompt parse msg dflt rest tr2
    | .panicked => .panicked

/-- A conditionally issued prompt, modelling the
`if mode != Static { Some(prompt...) } else { None }` pattern of
`gather_args`. -/
def promptIf {α : Type} (cond : Bool) (parse : List Char → RustResult α)
    (msg : String) (dflt : List Char) (sc : Script) (tr : PromptTrace) :
    RunRes (Option α × Script × PromptTrace) :=
  if cond then
    RunRes.bind (prompt parse msg dflt sc tr) (fun x => .ok (some x.1, x.2.1, x.2.2))
  else .ok (none, sc, tr)

/-- Rust Debug rendering of a LightingMode, as used for the mode default
when previous arguments are threaded. -/
def modeDebug : LightingMode → List Char
  | .static => "Static".data
  | .breath => "Breath".data
  | .neon => "Neon".data
  | .wave => "Wave".data
  | .shifting => "Shifting".data
  | .zoom => "Zoom".data

/-- Rust Debug rendering of a Direction. -/
def dirDebug : Direction → List Char
  | .rightToLeft => "RightToLeft".data
  | .leftToRight => "LeftToRight".data

/-- Decimal rendering of a number. -/
def natStr (n : Nat) : List Char := (Nat.repr n).data

/-- Rust Debug rendering of a Vec of numbers, e.g. a list rendered
as [1, 2]. -/
def zonesDebug (zs : List Nat) : List Char :=
  '[' :: (List.intercalate ", ".data (zs.map natStr)) ++ [']']

/-- The r,g,b default string of the color prompt. -/
def colorTripleStr (r g b : Nat) : List Char :=
  natStr r ++ ',' :: natStr g ++ ',' :: natStr b

/-- `gather_args` (src/interactive.rs): prompt for every field in source
order, drawing each default from the previous-attempt arguments when they
are given and from the fixed defaults otherwise; a zones answer containing
0 expands to all four zones; speed, brightness and direction are prompted
only for non-static modes and fall back to 4, 100 and left-to-right. -/
def gather_args (prev : Option Args) (sc0 : Script) (tr0 : PromptTrace) :
    RunRes (Args × Script × PromptTrace) :=
  RunRes.bind
    (prompt parse_lighting_mode "Choose lighting mode (static, wave, etc.)"
      (prev.elim "static".data (fun a => modeDebug a.mode)) sc0 tr0) (fun x1 =>
  match x1 with
  | (mode, sc1, tr1) =>
    RunRes.bind
      (prompt parse_zones "Specify zones (0 for all, or comma-separated for specific zones)"
        (prev.elim "0".data (fun a => zonesDebug a.zones)) sc1 tr1) (fun x2 =>
    match x2 with
    | (zones0, sc2, tr2) =>
      let zones := if 0 ∈ zones0 then [1, 2, 3, 4] else zones0
      RunRes.bind
        (promptIf (mode ≠ LightingMode.static)
          (fun s => parse_u8 s "Speed" 0 9) "Lighting speed (0-9)"
          (prev.elim "4".data (fun a => natStr a.speed)) sc2 tr2) (fun x3 =>
      match x3 with
      | (speedOpt, sc3, tr3) =>
        RunRes.bind
          (promptIf (mode ≠ LightingMode.static)
            (fun s => parse_u8 s "Brightness" 0 100) "Brightness (0-100)"
            (prev.elim "100".data (fun a => natStr a.brightness)) sc3 tr3) (fun x4 =>
        match x4 with
        | (brightOpt, sc4, tr4) =>
          RunRes.bind
            (promptIf (mode ≠ LightingMode.static) parse_direction
              "Direction (left-to-right or right-to-left)"
              (prev.elim "left-to-right".data (fun a => dirDebug a.direction)) sc4 tr4) (fun x5 =>
          match x5 with
          | (dirOpt, sc5, tr5) =>
            RunRes.bind
              (prompt parse_color "Specify color (#rrggbb, #rgb, rrggbb, or r,g,b)"
                (prev.elim "50,255,50".data (fun a => colorTripleStr a.red a.green a.blue))
                sc5 tr5) (fun x6 =>
            match x6 with
            | ((r, g, b), sc6, tr6) =>
              RunRes.bind
                (prompt parse_confirmation "Debug mode? (y/N)" "N".data sc6 tr6) (fun x7 =>
              match x7 with
              | (dry, sc7, tr7) =>
                .ok (⟨mode, zones, speedOpt.getD 4, brightOpt.getD 100,
                      dirOpt.getD Direction.leftToRight, none, r, g, b,
                      none, none, false, dry, false⟩, sc7, tr7))))))))

/-- `interactive_mode` (src/interactive.rs): gather all arguments, show the
summary, ask for confirmation, and on rejection run the whole sequence
again.  Each round invokes `gather_args` with `None` for the previous
arguments, exactly as the source does.  The fuel bounds the number of
rounds the scripted session may take. -/
def interactive_loop : Nat → Script → PromptTrace → RunRes (Args × Script × PromptTrace)
  | 0, _, _ => .stuck
  | fuel + 1, sc, tr =>
    RunRes.bind (gather_args none sc tr) (fun x =>
    match x with
    | (args, sc1, tr1) =>
      RunRes.bind
        (prompt parse_confirmation "Apply these settings? (Y/n)" "Y".data sc1 tr1) (fun y =>
      match y with
      | (conf, sc2, tr2) =>
        if conf then .ok (args, sc2, tr2) else interactive_loop fuel sc2 tr2))

/-- `main` (src/main.rs), argument-resolution part: when `--interactive` is
set the whole Argument Model is replaced by the interactive session result
before the remaining phases run. -/
def mainModel (script : Script) (fuel : Nat) (a0 : Args)
    (store : String → Option Args) : RunRes (Except MainErr MainOutcome) :=
  if a0.interactive then
    RunRes.bind (interactive_loop fuel script []) (fun x => .ok (mainSteps x.1 store))
  else .ok (mainSteps a0 store)

/-- Prompt-trace component of a scripted interactive session. -/
def traceOf (r : RunRes (Args × Script × PromptTrace)) : Option PromptTrace :=
  match r with
  | .ok (_, _, tr) => some tr
  | _ => none

/-- Argument component of a scripted interactive session. -/
def argsOf (r : RunRes (Args × Script × PromptTrace)) : Option Args :=
  match r with
  | .ok (a, _, _) => some a
  | _ => none

/-! ## Encoder theorems -/

/-- For a list of valid zones `zoneBufs` builds exactly one 4-byte buffer
per zone, in order: the zone mask followed by the three color channels. -/
theorem zoneBufs_ok (zones : List Nat) (c : RGB)
    (hz : ∀ z ∈ zones, 1 ≤ z ∧ z ≤ 4) :
    zoneBufs zones c = .ok (zones.map fun z => [2 ^ (z - 1), c.red, c.green, c.blue]) := by
  induction zones with
  | nil => rfl
  | cons z zs ih =>
    have h1 := hz z (List.mem_cons_self z zs)
    have h2 : ¬ (z = 0 ∨ 9 ≤ z) := by omega
    have ihh := ih (fun w hw => hz w (List.mem_cons_of_mem z hw))
    simp only [zoneBufs, List.foldr_cons] at *
    rw [Zone.to_mask, if_neg h2, ihh]
    simp [staticPayloadBuf]

/-- C1: for every non-empty list of zones each in 1..4 and every color,
`apply_static` produces one 4-byte buffer per zone in list order whose
byte 0 is the mask `1 <<< (zone - 1)` (exactly the bit `zone - 1` set) and
whose bytes 1..3 are red, green, blue, followed by exactly one 16-byte
enable buffer whose byte 2 is 100, whose byte 9 is 1, and whose other
bytes are all zero. -/
theorem apply_static_layout (ctrl : Controller) (zones : List Nat) (c : RGB)
    (hne : zones ≠ []) (hz : ∀ z ∈ zones, 1 ≤ z ∧ z ≤ 4) :
    (∃ tr : IOTrace,
      apply_static ctrl zones c =
        .ok ((zones.map fun z =>
                DevicePayload.mk CHARACTER_DEVICE_STATIC
                  [2 ^ (z - 1), c.red, c.green, c.blue])
              ++ [DevicePayload.mk CHARACTER_DEVICE enablePayload], tr))
    ∧ (∀ z ∈ zones, ∀ j : Nat, Nat.testBit (2 ^ (z - 1)) j = decide (z - 1 = j))
    ∧ enablePayload.length = 16
    ∧ enablePayload.get? 2 = some 100
    ∧ enablePayload.get? 9 = some 1
    ∧ (∀ i : Nat, i < 16 → i ≠ 2 → i ≠ 9 → enablePayload.get? i = some 0) := by
  refine ⟨?_, ?_, by decide, by decide, by decide, ?_⟩
  · refine ⟨?_, ?_⟩
    · exact match ctrl with
        | .real => ⟨[CHARACTER_DEVICE_STATIC] ++ [CHARACTER_DEVICE],
            (zones.map fun z => [2 ^ (z - 1), c.red, c.green, c.blue]).map
              (fun b => (CHARACTER_DEVICE_STATIC, b)) ++ [(CHARACTER_DEVICE, enablePayload)]⟩
        | .dryRun => ⟨[], []⟩
    · cases ctrl <;>
        simp [apply_static, zoneBufs_ok zones c hz, List.map_map, Function.comp]
  · intro z _ j
    exact Nat.testBit_two_pow
  · intro i h1 h2 h3
    interval_cases i <;> simp_all <;> rfl

/-- C2: for every non-Static mode, speed in 0..9, brightness in 0..100,
direction and color, `apply_dynamic` produces exactly one 16-byte buffer
for the dynamic device with offset 0 the mode ordinal, offset 1 the speed,
offset 2 the brightness, offset 3 equal to 8 exactly for Wave, offset 4
the direction code, offsets 5..7 the color channels, offset 9 equal to 1,
and every other byte zero. -/
theorem apply_dynamic_layout (ctrl : Controller) (mode : LightingMode)
    (speed brightness : Nat) (dir : Direction) (c : RGB)
    (hm : mode ≠ LightingMode.static) (hs : speed ≤ 9) (hb : brightness ≤ 100) :
    (apply_dynamic ctrl mode speed brightness dir c).1 =
      [DevicePayload.mk CHARACTER_DEVICE (dynamicPayloadBuf mode speed brightness dir c)]
    ∧ dynamicPayloadBuf mode speed brightness dir c =
        [modeOrd mode, speed, brightness, (if mode = LightingMode.wave then 8 else 0),
         dirCode dir, c.red, c.green, c.blue, 0, 1, 0, 0, 0, 0, 0, 0]
    ∧ (dynamicPayloadBuf mode speed brightness dir c).length = 16
    ∧ (dynamicPayloadBuf mode speed brightness dir c).get? 0 = some (modeOrd mode)
    ∧ (dynamicPayloadBuf mode speed brightness dir c).get? 1 = some speed
    ∧ (dynamicPayloadBuf mode speed brightness dir c).get? 2 = some brightness
    ∧ (dynamicPayloadBuf mode speed brightness dir c).get? 3 =
        some (if mode = LightingMode.wave then 8 else 0)
    ∧ (dynamicPayloadBuf mode speed brightness dir c).get? 4 = some (dirCode dir)
    ∧ (dynamicPayloadBuf mode speed brightness dir c).get? 5 = some c.red
    ∧ (dynamicPayloadBuf mode speed brightness dir c).get? 6 = some c.green
    ∧ (dynamicPayloadBuf mode speed brightness dir c).get? 7 = some c.blue
    ∧ (dynamicPayloadBuf mode speed brightness dir c).get? 9 = some 1
    ∧ (∀ i : Nat, i < 16 → i = 8 ∨ 10 ≤ i → (dynamicPayloadBuf mode speed brightness dir c).get? i = some 0) := by
  refine ⟨rfl, rfl, rfl, rfl, rfl, rfl, rfl, rfl, rfl, rfl, rfl, rfl, ?_⟩
  intro i h1 h2
  interval_cases i <;> first | rfl | omega

/-- Witness for the C2 layout theorem at mode Breath, speed 5,
brightness 100, direction left-to-right, color (7, 8, 9). -/
theorem apply_dynamic_layout_witness :
    (apply_dynamic Controller.real LightingMode.breath 5 100 Direction.leftToRight
        (RGB.mk 7 8 9)).1 =
      [DevicePayload.mk CHARACTER_DEVICE [1, 5, 100, 0, 2, 7, 8, 9, 0, 1, 0, 0, 0, 0, 0, 0]] := by
  have h := (apply_dynamic_layout Controller.real LightingMode.breath 5 100
    Direction.leftToRight (RGB.mk 7 8 9) (by decide) (by decide) (by decide)).1
  simpa using h

/-- Witness for the C1 layout theorem at zone 3 with color (10, 20, 30):
the zone buffer is [0b100, 10, 20, 30]. -/
theorem apply_static_layout_witness :
    ∃ tr : IOTrace,
      apply_static Controller.real [3] (RGB.mk 10 20 30) =
        .ok ([DevicePayload.mk CHARACTER_DEVICE_STATIC [4, 10, 20, 30],
              DevicePayload.mk CHARACTER_DEVICE enablePayload], tr) := by
  obtain ⟨⟨tr, heq⟩, -⟩ :=
    apply_static_layout Controller.real [3] (RGB.mk 10 20 30) (by decide) (by decide)
  exact ⟨tr, by simpa using heq⟩

/-- C4: for every mode, zones list, speed, brightness, direction and color,
the dry-run controller opens no device and writes nothing, and returns a
payload list byte-for-byte identical to the one the real controller
returns for the same inputs. -/
theorem dry_run_matches_real (mode : LightingMode) (zones : List Nat)
    (speed brightness : Nat) (dir : Direction) (c : RGB) :
    payloadsOf (applyMode Controller.dryRun mode zones speed brightness dir c)
      = payloadsOf (applyMode Controller.real mode zones speed brightness dir c)
    ∧ (∀ pl tr, applyMode Controller.dryRun mode zones speed brightness dir c = .ok (pl, tr) →
        tr.opened = [] ∧ tr.written = []) := by
  constructor
  · cases mode
    · cases h : zoneBufs zones c <;> simp [applyMode, apply_static, payloadsOf, h]
    all_goals simp [applyMode, apply_dynamic, payloadsOf]
  · intro pl tr heq
    cases mode
    · cases h : zoneBufs zones c <;>
        simp [applyMode, apply_static, h] at heq <;> simp [← heq.2]
    all_goals (simp [applyMode, apply_dynamic] at heq; simp [← heq.2])

/-- Witness for the C4 equivalence theorem at mode Breath, zones [1, 2],
speed 5, brightness 100, direction left-to-right, color (7, 8, 9). -/
theorem dry_run_matches_real_witness :
    payloadsOf (applyMode Controller.dryRun LightingMode.breath [1, 2] 5 100
        Direction.leftToRight (RGB.mk 7 8 9))
      = payloadsOf (applyMode Controller.real LightingMode.breath [1, 2] 5 100
        Direction.leftToRight (RGB.mk 7 8 9))
    ∧ (IOTrace.mk [] []).opened = [] ∧ (IOTrace.mk [] []).written = [] := by
  have h := dry_run_matches_real LightingMode.breath [1, 2] 5 100
    Direction.leftToRight (RGB.mk 7 8 9)
  exact ⟨h.1, h.2
    [DevicePayload.mk CHARACTER_DEVICE [1, 5, 100, 0, 2, 7, 8, 9, 0, 1, 0, 0, 0, 0, 0, 0]]
    (IOTrace.mk [] []) (by decide)⟩

/-- C3 (code bug): `convert_zones` expands only the one-element list [0];
a longer list containing 0 is accepted element-wise because `Zone::new 0`
succeeds, so zone 0 reaches the encoder, where `Zone::to_mask` underflows
the u8 subtraction (a panic).  The singleton expansion itself is correct. -/
theorem convert_zones_zero_reaches_encoder :
    convert_zones [0] = .ok [1, 2, 3, 4]
    ∧ convert_zones [0, 1] = .ok [0, 1]
    ∧ (0 : Nat) ∈ [0, 1]
    ∧ apply_static Controller.dryRun [0, 1] (RGB.mk 1 2 3) = .panicked
    ∧ apply_static Controller.real [0, 1] (RGB.mk 1 2 3) = .panicked := by
  refine ⟨by decide, by decide, by decide, by decide, by decide⟩

/-! ## String lemmas for the color and tuple parsers -/

/-- A decimal digit is not whitespace. -/
theorem not_ws_of_digit {c : Char} (h : isDigitCh c = true) : isWS c = false := by
  simp only [isWS, Bool.or_eq_false_iff, beq_eq_false_iff_ne, ne_eq]
  refine ⟨⟨⟨?_, ?_⟩, ?_⟩, ?_⟩ <;> rintro rfl <;> exact absurd h (by decide)

/-- A decimal digit is not a comma. -/
theorem digit_ne_comma {c : Char} (h : isDigitCh c = true) : c ≠ ',' := by
  rintro rfl; exact absurd h (by decide)

/-- A decimal digit is not the hash sign. -/
theorem digit_ne_hash {c : Char} (h : isDigitCh c = true) : c ≠ '#' := by
  rintro rfl; exact absurd h (by decide)

/-- A decimal digit is not the plus sign. -/
theorem digit_ne_plus {c : Char} (h : isDigitCh c = true) : c ≠ '+' := by
  rintro rfl; exact absurd h (by decide)

/-- A whitespace character is not a comma. -/
theorem ws_ne_comma {c : Char} (h : isWS c = true) : c ≠ ',' := by
  rintro rfl; exact absurd h (by decide)

/-- A whitespace character is not the hash sign. -/
theorem ws_ne_hash {c : Char} (h : isWS c = true) : c ≠ '#' := by
  rintro rfl; exact absurd h (by decide)

/-- Splitting a comma-free string yields that string as the only part. -/
theorem splitComma_no_comma (xs : List Char) (h : ',' ∉ xs) : splitComma xs = [xs] := by
  induction xs with
  | nil => rfl
  | cons c t ih =>
    have hc : ¬ c = ',' := fun hh => h (hh ▸ List.mem_cons_self c t)
    have ht := ih (fun hm => h (List.mem_cons_of_mem c hm))
    simp [splitComma, hc, ht]

/-- Splitting past a first comma that terminates a comma-free chunk. -/
theorem splitComma_append (xs ys : List Char) (h : ',' ∉ xs) :
    splitComma (xs ++ ',' :: ys) = xs :: splitComma ys := by
  induction xs with
  | nil => simp [splitComma]
  | cons c t ih =>
    have hc : ¬ c = ',' := fun hh => h (hh ▸ List.mem_cons_self c t)
    have ht := ih (fun hm => h (List.mem_cons_of_mem c hm))
    simp only [List.cons_append, splitComma, hc, if_false, List.append_eq]
    rw [ht]

/-- Dropping whitespace skips over an all-whitespace chunk. -/
theorem dropWhile_ws_append (w t : List Char) (hw : ∀ c ∈ w, isWS c = true) :
    (w ++ t).dropWhile isWS = t.dropWhile isWS := by
  induction w with
  | nil => rfl
  | cons c r ih =>
    have hc := hw c (List.mem_cons_self c r)
    simp [List.dropWhile_cons, hc, ih (fun x hx => hw x (List.mem_cons_of_mem c hx))]

/-- Trimming a nonempty digit string surrounded by whitespace yields the
digit string. -/
theorem trim_ws_digits (w1 w2 d : List Char)
    (h1 : ∀ c ∈ w1, isWS c = true) (h2 : ∀ c ∈ w2, isWS c = true)
    (hd : d ≠ []) (hdig : ∀ c ∈ d, isDigitCh c = true) :
    trim (w1 ++ d ++ w2) = d := by
  obtain ⟨c, d2, rfl⟩ := List.exists_cons_of_ne_nil hd
  have hc : isWS c = false := not_ws_of_digit (hdig c (List.mem_cons_self c d2))
  rw [trim, List.append_assoc, dropWhile_ws_append w1 _ h1, List.cons_append,
    List.dropWhile_cons, hc]
  simp only [Bool.false_eq_true, if_false]
  rw [List.reverse_cons, List.reverse_append, List.append_assoc,
    dropWhile_ws_append w2.reverse _ (fun x hx => h2 x (List.mem_reverse.mp hx))]
  rcases List.eq_nil_or_concat d2 with rfl | ⟨d3, e, rfl⟩
  · simp [List.dropWhile_cons, hc]
  · have he : isWS e = false := not_ws_of_digit (hdig e (by simp))
    simp [List.reverse_append, List.dropWhile_cons, he]

/-- Rust `parse::<u8>` succeeds on a nonempty all-digit string whose value
fits in a byte and returns exactly that value. -/
theorem parse_u8_rust_digits (d : List Char) (hd : d ≠ [])
    (hdig : ∀ c ∈ d, isDigitCh c = true) (hv : decVal d ≤ 255) :
    parse_u8_rust d = some (decVal d) := by
  have hplus : stripPlus d = d := by
    obtain ⟨c, t, rfl⟩ := List.exists_cons_of_ne_nil hd
    have hc := digit_ne_plus (hdig c (List.mem_cons_self c t))
    simp [stripPlus, hc]
  rw [parse_u8_rust]
  simp only [hplus]
  rw [if_pos ⟨hd, List.all_eq_true.mpr hdig, hv⟩]

/-- A comma never occurs in a whitespace-digits-whitespace chunk. -/
theorem no_comma_in_pad (w1 d w2 : List Char)
    (hw1 : ∀ c ∈ w1, isWS c = true) (hw2 : ∀ c ∈ w2, isWS c = true)
    (hd : ∀ c ∈ d, isDigitCh c = true) : ',' ∉ w1 ++ d ++ w2 := by
  intro hm
  rcases List.mem_append.mp hm with hm | hm
  · rcases List.mem_append.mp hm with hm | hm
    · exact absurd (hw1 _ hm) (by decide)
    · exact absurd (hd _ hm) (by decide)
  · exact absurd (hw2 _ hm) (by decide)

/-- Evaluation of `parse_rgb_tuple` once the comma split is known to have
exactly three parts. -/
theorem parse_rgb_tuple_eq (s p1 p2 p3 : List Char)
    (hs : splitComma s = [p1, p2, p3]) :
    parse_rgb_tuple s =
      (match parse_u8_rust (trim p1) with
       | none => RustResult.err "Invalid red component in RGB"
       | some r =>
         match parse_u8_rust (trim p2) with
         | none => RustResult.err "Invalid green component in RGB"
         | some g =>
           match parse_u8_rust (trim p3) with
           | none => RustResult.err "Invalid blue component in RGB"
           | some b => RustResult.ok (r, g, b)) := by
  rw [parse_rgb_tuple, hs]

/-- C5 (amended): for every well-formed decimal triple, three
comma-separated nonempty digit groups with values at most 255, each
optionally surrounded by whitespace, whose total byte length is not 6,
`parse_color` returns exactly the numeric triple.  (Byte-length-6 inputs
are captured by the bare-hex branch first and fail; see the
counterexample.) -/
theorem parse_color_tuple_roundtrip
    (w1 w2 w3 w4 w5 w6 d1 d2 d3 : List Char)
    (hw1 : ∀ c ∈ w1, isWS c = true) (hw2 : ∀ c ∈ w2, isWS c = true)
    (hw3 : ∀ c ∈ w3, isWS c = true) (hw4 : ∀ c ∈ w4, isWS c = true)
    (hw5 : ∀ c ∈ w5, isWS c = true) (hw6 : ∀ c ∈ w6, isWS c = true)
    (hd1 : d1 ≠ []) (hg1 : ∀ c ∈ d1, isDigitCh c = true) (hv1 : decVal d1 ≤ 255)
    (hd2 : d2 ≠ []) (hg2 : ∀ c ∈ d2, isDigitCh c = true) (hv2 : decVal d2 ≤ 255)
    (hd3 : d3 ≠ []) (hg3 : ∀ c ∈ d3, isDigitCh c = true) (hv3 : decVal d3 ≤ 255)
    (hlen : strLen (w1 ++ d1 ++ w2 ++ ',' :: (w3 ++ d2 ++ w4 ++ ',' :: (w5 ++ d3 ++ w6))) ≠ 6) :
    parse_color (w1 ++ d1 ++ w2 ++ ',' :: (w3 ++ d2 ++ w4 ++ ',' :: (w5 ++ d3 ++ w6)))
      = .ok (decVal d1, decVal d2, decVal d3) := by
  have hnh : ¬ ((w1 ++ d1 ++ w2 ++ ',' :: (w3 ++ d2 ++ w4 ++ ',' :: (w5 ++ d3 ++ w6))) ≠ []
      ∧ (w1 ++ d1 ++ w2 ++ ',' :: (w3 ++ d2 ++ w4 ++ ',' :: (w5 ++ d3 ++ w6))).headD ' ' = '#') := by
    rintro ⟨-, hh⟩
    cases w1 with
    | cons c t =>
      have hc : c = '#' := hh
      exact absurd (hw1 c (List.mem_cons_self c t)) (by rw [hc]; decide)
    | nil =>
      obtain ⟨c, t, rfl⟩ := List.exists_cons_of_ne_nil hd1
      have hc : c = '#' := hh
      exact absurd (hg1 c (List.mem_cons_self c t)) (by rw [hc]; decide)
  have hmem : ',' ∈ w1 ++ d1 ++ w2 ++ ',' :: (w3 ++ d2 ++ w4 ++ ',' :: (w5 ++ d3 ++ w6)) := by
    simp
  have hsplit : splitComma (w1 ++ d1 ++ w2 ++ ',' :: (w3 ++ d2 ++ w4 ++ ',' :: (w5 ++ d3 ++ w6)))
      = [w1 ++ d1 ++ w2, w3 ++ d2 ++ w4, w5 ++ d3 ++ w6] := by
    rw [splitComma_append _ _ (no_comma_in_pad w1 d1 w2 hw1 hw2 hg1),
      splitComma_append _ _ (no_comma_in_pad w3 d2 w4 hw3 hw4 hg2),
      splitComma_no_comma _ (no_comma_in_pad w5 d3 w6 hw5 hw6 hg3)]
  rw [parse_color, if_neg hnh, if_neg hlen, if_pos hmem,
    parse_rgb_tuple_eq _ _ _ _ hsplit,
    trim_ws_digits w1 w2 d1 hw1 hw2 hd1 hg1, parse_u8_rust_digits d1 hd1 hg1 hv1,
    trim_ws_digits w3 w4 d2 hw3 hw4 hd2 hg2, parse_u8_rust_digits d2 hd2 hg2 hv2,
    trim_ws_digits w5 w6 d3 hw5 hw6 hd3 hg3, parse_u8_rust_digits d3 hd3 hg3 hv3]

/-- C5 (counterexample to the claim as stated): the well-formed decimal
triple 1,2,34 has byte length 6, so `parse_color` routes it to the bare
hex branch, which fails; the numeric triple (1, 2, 34) is not returned. -/
theorem parse_color_tuple_len6_fails :
    parse_color "1,2,34".data = .err "Invalid red component in hex"
    ∧ parse_color "1,2,34".data ≠ .ok (1, 2, 34) := by
  refine ⟨by decide, by decide⟩

/-- Witness for the C5 round-trip theorem on the 8-byte input 12,245,7
(with one space of padding after the first comma). -/
theorem parse_color_tuple_roundtrip_witness :
    parse_color ([] ++ "12".data ++ [] ++ ',' :: ([' '] ++ "245".data ++ [] ++ ',' :: ([] ++ "7".data ++ [])))
      = .ok (decVal "12".data, decVal "245".data, decVal "7".data) :=
  parse_color_tuple_roundtrip [] [] [' '] [] [] [] "12".data "245".data "7".data
    (by decide) (by decide) (by decide) (by decide) (by decide) (by decide)
    (by decide) (by decide) (by decide) (by decide) (by decide) (by decide)
    (by decide) (by decide) (by decide) (by decide)

/-- Hex digits are ASCII. -/
theorem ascii_of_hex {c : Char} (h : isHexCh c = true) : c.toNat < 128 := by
  simp only [isHexCh, Bool.or_eq_true, Bool.and_eq_true, decide_eq_true_eq] at h
  omega

/-- Hex digits occupy one UTF-8 byte. -/
theorem utf8Len_hex {c : Char} (h : isHexCh c = true) : utf8Len c = 1 := by
  rw [utf8Len, if_pos (ascii_of_hex h)]

/-- The value of a hex digit is below 16. -/
theorem hexDigitVal_lt16 {c : Char} (h : isHexCh c = true) : hexDigitVal c < 16 := by
  simp only [isHexCh, Bool.or_eq_true, Bool.and_eq_true, decide_eq_true_eq] at h
  rw [hexDigitVal]
  split_ifs <;> omega

/-- A hex digit is not the plus sign. -/
theorem hex_ne_plus {c : Char} (h : isHexCh c = true) : c ≠ '+' := by
  rintro rfl; exact absurd h (by decide)

/-- A hex digit is not the hash sign. -/
theorem hex_ne_hash {c : Char} (h : isHexCh c = true) : c ≠ '#' := by
  rintro rfl; exact absurd h (by decide)

/-- Radix-16 parsing of a two-hex-digit string yields the byte value. -/
theorem from_str_radix16_pair (a b : Char) (ha : isHexCh a = true) (hb : isHexCh b = true) :
    from_str_radix16 [a, b] = some (16 * hexDigitVal a + hexDigitVal b) := by
  have hsp : stripPlus [a, b] = [a, b] := by
    simp [stripPlus, hex_ne_plus ha]
  have hval : hexVal [a, b] = 16 * hexDigitVal a + hexDigitVal b := by
    simp [hexVal]; ring
  have hle : hexVal [a, b] ≤ 255 := by
    have h1 := hexDigitVal_lt16 ha
    have h2 := hexDigitVal_lt16 hb
    omega
  rw [from_str_radix16]
  simp only [hsp]
  rw [if_pos ⟨by simp, by simp [ha, hb], hle⟩, hval]

/-- On an all-ASCII string, dropping bytes is dropping characters. -/
theorem byteDrop_ascii (s : List Char) (n : Nat)
    (hs : ∀ c ∈ s, utf8Len c = 1) (hn : n ≤ s.length) :
    byteDrop s n = some (s.drop n) := by
  induction s generalizing n with
  | nil =>
    cases n with
    | zero => rfl
    | succ m => simp at hn
  | cons c t ih =>
    cases n with
    | zero => rfl
    | succ m =>
      have hc : utf8Len c = 1 := hs c (List.mem_cons_self c t)
      rw [byteDrop, hc]
      simp only [Nat.add_sub_cancel, if_pos (by omega : (1 : Nat) ≤ m + 1),
        List.drop_succ_cons]
      exact ih m (fun x hx => hs x (List.mem_cons_of_mem c hx)) (by simpa using hn)

/-- On an all-ASCII string, taking bytes is taking characters. -/
theorem sliceTo_ascii (s : List Char) (n : Nat)
    (hs : ∀ c ∈ s, utf8Len c = 1) (hn : n ≤ s.length) :
    sliceTo s n = some (s.take n) := by
  induction s generalizing n with
  | nil =>
    cases n with
    | zero => rfl
    | succ m => simp at hn
  | cons c t ih =>
    cases n with
    | zero => rfl
    | succ m =>
      have hc : utf8Len c = 1 := hs c (List.mem_cons_self c t)
      rw [sliceTo, hc]
      simp only [Nat.add_sub_cancel, if_pos (by omega : (1 : Nat) ≤ m + 1)]
      rw [ih m (fun x hx => hs x (List.mem_cons_of_mem c hx)) (by simpa using hn)]
      rfl

/-- On an all-ASCII string, byte slicing is drop-then-take on characters. -/
theorem byteSlice_ascii (s : List Char) (a b : Nat)
    (hs : ∀ c ∈ s, utf8Len c = 1) (hab : a ≤ b) (hb : b ≤ s.length) :
    byteSlice s a b = some ((s.drop a).take (b - a)) := by
  rw [byteSlice, byteDrop_ascii s a hs (le_trans hab hb)]
  exact sliceTo_ascii _ _ (fun c hc => hs c (List.mem_of_mem_drop hc))
    (by simp only [List.length_drop]; omega)

/-- `parse_hex_color` on six hex digits decodes the three byte pairs. -/
theorem parse_hex_color_six (a b c d e f : Char)
    (ha : isHexCh a = true) (hb : isHexCh b = true) (hc : isHexCh c = true)
    (hd : isHexCh d = true) (he : isHexCh e = true) (hf : isHexCh f = true) :
    parse_hex_color [a, b, c, d, e, f] =
      .ok (16 * hexDigitVal a + hexDigitVal b, 16 * hexDigitVal c + hexDigitVal d,
           16 * hexDigitVal e + hexDigitVal f) := by
  have hall : ∀ x ∈ [a, b, c, d, e, f], utf8Len x = 1 := by
    intro x hx
    simp only [List.mem_cons, List.not_mem_nil, or_false] at hx
    rcases hx with rfl | rfl | rfl | rfl | rfl | rfl
    exacts [utf8Len_hex ha, utf8Len_hex hb, utf8Len_hex hc,
      utf8Len_hex hd, utf8Len_hex he, utf8Len_hex hf]
  have hlen : strLen [a, b, c, d, e, f] = 6 := by
    simp [strLen, utf8Len_hex ha, utf8Len_hex hb, utf8Len_hex hc,
      utf8Len_hex hd, utf8Len_hex he, utf8Len_hex hf]
  rw [parse_hex_color, if_pos hlen,
    byteSlice_ascii _ 0 2 hall (by omega) (by simp),
    byteSlice_ascii _ 2 4 hall (by omega) (by simp),
    byteSlice_ascii _ 4 6 hall (by omega) (by simp)]
  simp only [List.drop_zero, List.drop_succ_cons, List.drop_nil,
    List.take_succ_cons, List.take_zero, List.take_nil,
    Nat.reduceSub]
  rw [from_str_radix16_pair a b ha hb, from_str_radix16_pair c d hc hd,
    from_str_radix16_pair e f he hf]

/-- `parse_hex_color` on three hex digits doubles each nibble. -/
theorem parse_hex_color_three (a b c : Char)
    (ha : isHexCh a = true) (hb : isHexCh b = true) (hc : isHexCh c = true) :
    parse_hex_color [a, b, c] =
      .ok (16 * hexDigitVal a + hexDigitVal a, 16 * hexDigitVal b + hexDigitVal b,
           16 * hexDigitVal c + hexDigitVal c) := by
  have hall : ∀ x ∈ [a, b, c], utf8Len x = 1 := by
    intro x hx
    simp only [List.mem_cons, List.not_mem_nil, or_false] at hx
    rcases hx with rfl | rfl | rfl
    exacts [utf8Len_hex ha, utf8Len_hex hb, utf8Len_hex hc]
  have hlen : strLen [a, b, c] = 3 := by
    simp [strLen, utf8Len_hex ha, utf8Len_hex hb, utf8Len_hex hc]
  rw [parse_hex_color, hlen]
  simp only [show (3 : Nat) ≠ 6 by decide, if_neg, if_pos, reduceIte]
  rw [byteSlice_ascii _ 0 1 hall (by omega) (by simp),
    byteSlice_ascii _ 1 2 hall (by omega) (by simp),
    byteSlice_ascii _ 2 3 hall (by omega) (by simp)]
  simp only [List.drop_zero, List.drop_succ_cons, List.drop_nil,
    List.take_succ_cons, List.take_zero, List.take_nil,
    Nat.reduceSub, List.singleton_append]
  rw [from_str_radix16_pair a a ha ha, from_str_radix16_pair b b hb hb,
    from_str_radix16_pair c c hc hc]

/-- C7: for every valid 6-digit hex string, `parse_color` with and without
the leading hash both succeed with the decoded byte triple, and for every
3-digit hex string, `parse_color` of the hash form equals `parse_color` of
the hash form with every nibble doubled. -/
theorem parse_color_hex_laws (a b c d e f : Char)
    (ha : isHexCh a = true) (hb : isHexCh b = true) (hc : isHexCh c = true)
    (hd : isHexCh d = true) (he : isHexCh e = true) (hf : isHexCh f = true) :
    parse_color ('#' :: [a, b, c, d, e, f]) = parse_color [a, b, c, d, e, f]
    ∧ parse_color [a, b, c, d, e, f] =
        .ok (16 * hexDigitVal a + hexDigitVal b, 16 * hexDigitVal c + hexDigitVal d,
             16 * hexDigitVal e + hexDigitVal f)
    ∧ parse_color ('#' :: [a, b, c]) = parse_color ('#' :: [a, a, b, b, c, c]) := by
  have hlen6 : strLen [a, b, c, d, e, f] = 6 := by
    simp [strLen, utf8Len_hex ha, utf8Len_hex hb, utf8Len_hex hc,
      utf8Len_hex hd, utf8Len_hex he, utf8Len_hex hf]
  have hbare : parse_color [a, b, c, d, e, f] = parse_hex_color [a, b, c, d, e, f] := by
    rw [parse_color,
      if_neg (fun hh => hex_ne_hash ha hh.2),
      if_pos hlen6]
  have hhash6 : parse_color ('#' :: [a, b, c, d, e, f]) = parse_hex_color [a, b, c, d, e, f] := by
    rw [parse_color, if_pos ⟨by simp, rfl⟩]; rfl
  have hhash3 : parse_color ('#' :: [a, b, c]) = parse_hex_color [a, b, c] := by
    rw [parse_color, if_pos ⟨by simp, rfl⟩]; rfl
  have hhash6x : parse_color ('#' :: [a, a, b, b, c, c]) = parse_hex_color [a, a, b, b, c, c] := by
    rw [parse_color, if_pos ⟨by simp, rfl⟩]; rfl
  refine ⟨by rw [hbare, hhash6],
    by rw [hbare, parse_hex_color_six a b c d e f ha hb hc hd he hf], ?_⟩
  rw [hhash3, hhash6x, parse_hex_color_three a b c ha hb hc,
    parse_hex_color_six a a b b c c ha ha hb hb hc hc]

/-- Witness for the C7 hex laws at the string 12abcd (and shorthand 12a). -/
theorem parse_color_hex_laws_witness :
    parse_color ('#' :: ['1', '2', 'a', 'b', 'c', 'd']) = parse_color ['1', '2', 'a', 'b', 'c', 'd']
    ∧ parse_color ['1', '2', 'a', 'b', 'c', 'd'] =
        .ok (16 * hexDigitVal '1' + hexDigitVal '2', 16 * hexDigitVal 'a' + hexDigitVal 'b',
             16 * hexDigitVal 'c' + hexDigitVal 'd')
    ∧ parse_color ('#' :: ['1', '2', 'a']) = parse_color ('#' :: ['1', '1', '2', '2', 'a', 'a']) :=
  parse_color_hex_laws '1' '2' 'a' 'b' 'c' 'd'
    (by decide) (by decide) (by decide) (by decide) (by decide) (by decide)

/-- C6 (code bug): `parse_color` is not total.  On the input #é! the hex
candidate é! has byte length 3, so the 3-char branch slices the first byte
of the two-byte character é, which is a byte-index panic in Rust; the
6-byte input aé!bc panics likewise in the 6-char branch.  The claim that
every parser returns a value or an error and never panics fails here. -/
theorem parse_color_panics_on_multibyte :
    parse_color "#é!".data = RustResult.panicked
    ∧ parse_color "aé!bc".data = RustResult.panicked := by
  refine ⟨by decide, by decide⟩

/-- The scripted interactive session used to exhibit the restart defect:
round one enters mode wave, accepts every other default, and rejects the
confirmation; round two accepts every default and confirms. -/
def scriptC9 : Script :=
  [some "wave".data, none, none, none, none, none, none, some "n".data,
   none, none, none, none, some "y".data]

/-- C9 (code bug): after a rejected confirmation the prompting sequence
restarts with the original fixed defaults, not with the values just
entered: `interactive_mode` always calls `gather_args` with None, so the
ninth prompt (the mode prompt of round two) offers the fixed default
static even though wave was entered in round one, and the session ends
with mode static. -/
theorem interactive_restart_uses_fixed_defaults :
    (traceOf (interactive_loop 2 scriptC9 [])).bind (fun tr => tr.get? 8) =
      some ⟨"Choose lighting mode (static, wave, etc.)", "static".data⟩
    ∧ (traceOf (interactive_loop 2 scriptC9 [])).bind (fun tr => tr.get? 0) =
      some ⟨"Choose lighting mode (static, wave, etc.)", "static".data⟩
    ∧ (argsOf (interactive_loop 2 scriptC9 [])).map Args.mode = some LightingMode.static
    ∧ modeDebug LightingMode.wave ≠ "static".data := by
  refine ⟨by decide, by decide, by decide, by decide⟩

/-- C8 (amended): when a profile is loaded, the file contents replace the
in-memory Argument Model entirely and take precedence over every directly
supplied flag, including save and dry_run; only the list flag (acted on
before the load) and the load flag itself are taken from the command
line. -/
theorem load_replaces_model (cmd file : Args) (store : String → Option Args)
    (p : String) (sc : Script) (fuel : Nat)
    (hi : cmd.interactive = false) (hc : cmd.color = none)
    (hl : cmd.load = some p) (hs : store p = some file) :
    (cmd.list = true →
      mainModel sc fuel cmd store = .ok (.ok ⟨cmd, store, true⟩))
    ∧ (cmd.list = false →
      mainModel sc fuel cmd store =
        .ok (.ok ⟨file,
          (match file.save with
           | some q => storeInsert store q file
           | none => store), false⟩)) := by
  constructor <;> intro hlist <;>
    simp [mainModel, hi, mainSteps, resolveColor, hc, hlist, hl, hs]

/-- C10: a profile saved via the save flag stores the whole Argument Model
including save = the profile name, so a later invocation loading that
profile takes save and dry_run from the file and immediately re-saves the
same profile with the same contents. -/
theorem save_then_load_resaves (a1 a2 : Args) (store : String → Option Args) (n : String)
    (sc1 sc2 : Script) (f1 f2 : Nat)
    (h1i : a1.interactive = false) (h1c : a1.color = none) (h1l : a1.list = false)
    (h1load : a1.load = none) (h1save : a1.save = some n)
    (h2i : a2.interactive = false) (h2c : a2.color = none) (h2l : a2.list = false)
    (h2load : a2.load = some n) :
    mainModel sc1 f1 a1 store = .ok (.ok ⟨a1, storeInsert store n a1, false⟩)
    ∧ storeInsert store n a1 n = some a1
    ∧ a1.save = some n
    ∧ mainModel sc2 f2 a2 (storeInsert store n a1) =
        .ok (.ok ⟨a1, storeInsert (storeInsert store n a1) n a1, false⟩)
    ∧ storeInsert (storeInsert store n a1) n a1 n = some a1 := by
  refine ⟨?_, by simp [storeInsert], h1save, ?_, by simp [storeInsert]⟩
  · simp [mainModel, h1i, mainSteps, resolveColor, h1c, h1l, h1load, h1save]
  · simp [mainModel, h2i, mainSteps, resolveColor, h2c, h2l, h2load, storeInsert, h1save]

/-- A command line that both saves to x and loads profile p. -/
def cmdC8 : Args :=
  ⟨.static, [0], 4, 100, .leftToRight, none, 240, 48, 32, some "x", some "p", false, false, false⟩

/-- The profile file contents behind the name p: save unset, dry_run on. -/
def fileC8 : Args :=
  ⟨.breath, [1, 2], 5, 80, .rightToLeft, none, 1, 2, 3, none, none, false, true, false⟩

/-- A profile store holding exactly the profile p. -/
def storeC8 : String → Option Args := fun m => if m = "p" then some fileC8 else none

/-- C8 (counterexample to the claim as stated): loading p from cmdC8
yields the file contents wholesale, so the effective save is None even
though the command line said save = Some x, and the effective dry_run is
the file value true, not the command-line false: save and dry_run are not
preserved from the command line through the reload. -/
theorem load_discards_cmdline_flags :
    mainSteps cmdC8 storeC8 = .ok ⟨fileC8, storeC8, false⟩
    ∧ cmdC8.save = some "x" ∧ fileC8.save = none
    ∧ cmdC8.dry_run = false ∧ fileC8.dry_run = true := by
  refine ⟨rfl, rfl, rfl, rfl, rfl⟩

/-- Witness for the C8 replacement theorem at the concrete command cmdC8
and store storeC8. -/
theorem load_replaces_model_witness :
    (cmdC8.list = true →
      mainModel [] 0 cmdC8 storeC8 = .ok (.ok ⟨cmdC8, storeC8, true⟩))
    ∧ (cmdC8.list = false →
      mainModel [] 0 cmdC8 storeC8 =
        .ok (.ok ⟨fileC8,
          (match fileC8.save with
           | some q => storeInsert storeC8 q fileC8
           | none => storeC8), false⟩)) :=
  load_replaces_model cmdC8 fileC8 storeC8 "p" [] 0 rfl rfl rfl rfl

/-- An invocation that saves the profile q with dry_run on. -/
def a1C10 : Args :=
  ⟨.breath, [1], 5, 80, .leftToRight, none, 1, 2, 3, some "q", none, false, true, false⟩

/-- A later invocation that loads the profile q with dry_run off. -/
def a2C10 : Args :=
  ⟨.static, [0], 4, 100, .leftToRight, none, 240, 48, 32, none, some "q", false, false, false⟩

/-- Witness for the C10 re-save theorem at the concrete invocations a1C10
and a2C10 over the empty store. -/
theorem save_then_load_resaves_witness :
    mainModel [] 0 a1C10 (fun _ => none) =
      .ok (.ok ⟨a1C10, storeInsert (fun _ => none) "q" a1C10, false⟩)
    ∧ storeInsert (fun _ => none) "q" a1C10 "q" = some a1C10
    ∧ a1C10.save = some "q"
    ∧ mainModel [] 0 a2C10 (storeInsert (fun _ => none) "q" a1C10) =
        .ok (.ok ⟨a1C10,
          storeInsert (storeInsert (fun _ => none) "q" a1C10) "q" a1C10, false⟩)
    ∧ storeInsert (storeInsert (fun _ => none) "q" a1C10) "q" a1C10 "q" = some a1C10 :=
  save_then_load_resaves a1C10 a2C10 (fun _ => none) "q" [] [] 0 0
    rfl rfl rfl rfl rfl rfl rfl rfl rfl
